import Mathlib

/-!
Shallow embedding of the DMA buffer pool (src/src/DMABuffer.h) and the DAC
streaming driver (src/src/AdvancedDAC.cpp) of Arduino_AdvancedAnalog, together
with theorems settling the behavioural claims about them.

Conventions of the embedding:
* Buffers are identified by their index in the pool's descriptor array
  (`buffers[i]` in the source); the sample memory addresses play no role in the
  queue/ownership claims and are not modelled there.
* `LLQueue` lives in the repository's Queue.h, which is not under src/; its
  push/pop/empty operations are modelled from the spec (section 4.3) as a FIFO
  hand-off queue.
* Machine integers are modelled as `Nat`; where C integer conversion or 32-bit
  wraparound matters it is written out explicitly.
* Executions on which the C++ source has no defined behaviour (null-pointer
  dereferences, a wait loop that can never be released) are mapped to `none`.
-/

/-- Modelled from the spec: `LLQueue::push` (Queue.h, absent from src/) appends an
element at the tail of the queue. -/
def llpush (q : List Nat) (b : Nat) : List Nat := q ++ [b]

/-- Modelled from the spec: `LLQueue::pop` (Queue.h, absent from src/) removes and
returns the head of the queue; on an empty queue the result is the null sentinel
(`none`) and the queue is unchanged. -/
def llpop (q : List Nat) : Option Nat × List Nat :=
  match q with
  | [] => (none, [])
  | b :: rest => (some b, rest)

/-- Modelled from the spec: `LLQueue::empty` (Queue.h, absent from src/) is true
iff the queue holds no elements. -/
def llempty (q : List Nat) : Bool := q.isEmpty

/-- State of a `DMABufferPool<T>` (src/src/DMABuffer.h, lines 124-180): the free
queue, the ready queue, and the per-buffer `DMABuffer::flags` words (indexed by
the buffer's position in the pool's descriptor array). -/
structure DMABufferPool where
  freeq : List Nat
  readyq : List Nat
  flags : Nat → Nat

/-- `DMABufferPool::writable()`: `!freeq.empty()` (DMABuffer.h line 153). -/
def DMABufferPool.writable (p : DMABufferPool) : Bool := !(llempty p.freeq)

/-- `DMABufferPool::readable()`: `!readyq.empty()` (DMABuffer.h line 157). Note
that the source declares the return type `bool`, so in a C++ arithmetic context
the value promotes to 0 or 1. -/
def DMABufferPool.readable (p : DMABufferPool) : Bool := !(llempty p.readyq)

/-- `DMABufferPool::allocate()`: pop a buffer from the free queue
(DMABuffer.h line 162). -/
def DMABufferPool.allocate (p : DMABufferPool) : Option Nat × DMABufferPool :=
  match llpop p.freeq with
  | (b, q) => (b, { p with freeq := q })

/-- `DMABufferPool::release(buf)` (DMABuffer.h lines 165-169): `buf->clrflags()`
with the default all-ones mask (clearing the flags word), then `freeq.push(buf)`. -/
def DMABufferPool.release (p : DMABufferPool) (b : Nat) : DMABufferPool :=
  { p with
    flags := fun x => if x = b then 0 else p.flags x
    freeq := llpush p.freeq b }

/-- `DMABufferPool::enqueue(buf)`: `readyq.push(buf)` (DMABuffer.h line 173). -/
def DMABufferPool.enqueue (p : DMABufferPool) (b : Nat) : DMABufferPool :=
  { p with readyq := llpush p.readyq b }

/-- `DMABufferPool::dequeue()`: pop a buffer from the ready queue
(DMABuffer.h line 178). -/
def DMABufferPool.dequeue (p : DMABufferPool) : Option Nat × DMABufferPool :=
  match llpop p.readyq with
  | (b, q) => (b, { p with readyq := q })

/-- The `DMABufferPool` constructor (DMABuffer.h lines 132-150). `buffersOk`
models `new DMABuffer<T>[n_buffers]` yielding memory, `poolOk` models
`AlignedAlloc<A>::malloc(n_buffers * bufsize)` returning non-null. Only when
both succeed are the `n_buffers` buffers bound to their memory slices and pushed
onto the free queue in index order; otherwise both queues stay empty (the
non-functional but safe state). `n_samples`/`n_channels` only size the backing
memory and do not appear in the queue state. -/
def DMABufferPool.construct (n_buffers : Nat) (buffersOk poolOk : Bool) : DMABufferPool :=
  if buffersOk && poolOk then
    { freeq := List.range n_buffers, readyq := [], flags := fun _ => 0 }
  else
    { freeq := [], readyq := [], flags := fun _ => 0 }

/-- The fields of `dac_descr_t` (src/src/AdvancedDAC.cpp lines 5-15) that the
claims observe: the bound pool (`pool`, null before `begin`), the two in-flight
slots `dmabuf[0]`/`dmabuf[1]`, the resolution word, and two flags recording
whether the trigger timer (`HAL_TIM_Base_Start/Stop`) and the DAC DMA transfer
(`HAL_DAC_Start_DMA`/`HAL_DAC_Stop_DMA`) are currently running. -/
structure DacDescr where
  pool : Option DMABufferPool
  dmabuf0 : Option Nat
  dmabuf1 : Option Nat
  timRunning : Bool
  dacRunning : Bool
  resolution : Nat

/-- Body of `AdvancedDAC::write(dmabuf)` (AdvancedDAC.cpp lines 95-114) given the
bound descriptor `d`, its pool `p` (`descr->pool`) and the submitted buffer `b`.
`dmabuf.flush()` is cache maintenance with no effect on this state. The start
condition is translated literally from the source: `readable()` has return type
`bool`, so the C++ comparison `descr->pool->readable() > 2` promotes the bool to
0 or 1 (`Bool.toNat`) before comparing. When the condition holds, two buffers
are dequeued into the in-flight slots, `HAL_DAC_Start_DMA` starts the transfer
(from `dmabuf[0]`'s memory and size), double-buffer mode is enabled on both
slot addresses, and `HAL_TIM_Base_Start` starts the trigger timer. -/
def AdvancedDAC.write (d : DacDescr) (p : DMABufferPool) (b : Nat) : DacDescr :=
  let p1 := p.enqueue b
  if d.dmabuf0 = none ∧ (p1.readable).toNat > 2 then
    match p1.dequeue with
    | (b0, p2) =>
      match p2.dequeue with
      | (b1, p3) =>
        { d with
          pool := some p3
          dmabuf0 := b0
          dmabuf1 := b1
          dacRunning := true
          timRunning := true }
  else
    { d with pool := some p1 }

/-- `dac_descr_deinit(descr, dealloc_pool)` (AdvancedDAC.cpp lines 56-75): stop
the trigger timer and the DAC DMA transfer, delete the pool when `dealloc_pool`
is set, then release every non-null in-flight buffer back to the pool and clear
its slot. (With `dealloc_pool` the source would release the buffers through
their back-pointer into the just-deleted pool; the claims only exercise
`dealloc_pool = false`, where the buffers land in the retained pool's free
queue, slot 0 first.) -/
def dac_descr_deinit (d : DacDescr) (dealloc_pool : Bool) : DacDescr :=
  let p0 : Option DMABufferPool := if dealloc_pool then none else d.pool
  let p1 : Option DMABufferPool :=
    match d.dmabuf0, p0 with
    | some b, some p => some (p.release b)
    | _, p => p
  let p2 : Option DMABufferPool :=
    match d.dmabuf1, p1 with
    | some b, some p => some (p.release b)
    | _, p => p
  { pool := p2
    dmabuf0 := none
    dmabuf1 := none
    timRunning := false
    dacRunning := false
    resolution := d.resolution }

/-- `DAC_DMAConvCplt(dma, channel)` (AdvancedDAC.cpp lines 172-185), the
completion callback. `ct` is the already-inverted current-target indicator
`!hal_dma_get_ct(dma)` selecting the in-flight slot that is not currently being
read (`false` = slot 0, `true` = slot 1). If the ready queue is non-empty the
finished slot's buffer is released to the free queue, the next ready buffer is
dequeued into that slot and the hardware's next-target address updated;
otherwise the transfer is torn down via `dac_descr_deinit(descr, false)`.
`none` marks the executions the source leaves undefined (dereference of a null
`descr->pool` or null `descr->dmabuf[ct]`). -/
def DAC_DMAConvCplt (d : DacDescr) (ct : Bool) : Option DacDescr :=
  match d.pool with
  | none => none
  | some p =>
    if p.readable then
      match (if ct then d.dmabuf1 else d.dmabuf0) with
      | none => none
      | some b =>
        let p1 := p.release b
        match p1.dequeue with
        | (nb, p2) =>
          some (if ct then { d with pool := some p2, dmabuf1 := nb }
                else { d with pool := some p2, dmabuf0 := nb })
    else
      some (dac_descr_deinit d false)

/-- `AdvancedDAC::stop()` (AdvancedDAC.cpp lines 159-163):
`dac_descr_deinit(descr, false)` (the call also returns 1). -/
def AdvancedDAC.stop (d : DacDescr) : DacDescr := dac_descr_deinit d false

/-- `AdvancedDAC::available()` (AdvancedDAC.cpp lines 77-82) over the raw `descr`
member: a null descriptor returns `false`; a bound descriptor evaluates
`descr->pool->writable()`, which is a null-pointer dereference (undefined,
`none`) when no pool was ever constructed. -/
def AdvancedDAC.available (descr : Option DacDescr) : Option Bool :=
  match descr with
  | none => some false
  | some d =>
    match d.pool with
    | none => none
    | some p => some p.writable

/-- `AdvancedDAC::dequeue()` (AdvancedDAC.cpp lines 84-93) over the raw `descr`
member. A result `some (r, d')` is a defined return: `r = none` is the static
`NULLBUF` sentinel (returned immediately when `descr == nullptr`), `r = some b`
a buffer popped from the free queue. The outer `none` covers executions with no
defined result in this sequential model: the null `descr->pool` dereference
inside `available()`, and the `while (!available()) __WFI();` wait that nothing
can release when the free queue is empty. -/
def AdvancedDAC.dequeue (descr : Option DacDescr) :
    Option (Option Nat × Option DacDescr) :=
  match descr with
  | none => some (none, none)
  | some d =>
    match d.pool with
    | none => none
    | some p =>
      if p.writable then
        match p.allocate with
        | (b, p') => some (b, some { d with pool := some p' })
      else none

/-- `AdvancedDAC::write` entry point over the raw `descr` member: the body
(AdvancedDAC.cpp lines 95-114) dereferences `descr` and `descr->pool` with no
guard, so the call is undefined (`none`) unless a descriptor with a constructed
pool is bound. -/
def AdvancedDAC.writeM (descr : Option DacDescr) (b : Nat) : Option DacDescr :=
  match descr with
  | none => none
  | some d =>
    match d.pool with
    | none => none
    | some p => some (AdvancedDAC.write d p b)

/-- A driver state together with the buffers currently held by the application:
obtained from `AdvancedDAC::dequeue()` (the spec's `acquire`) and not yet
submitted via `write` or abandoned via `DMABuffer::release`. -/
structure DacWorld where
  dac : DacDescr
  app : List Nat

/-- The state right after a successful `begin` bound a freshly constructed pool
of `n_buffers = N` buffers to the channel: every buffer on the free queue, both
in-flight slots empty, no transfer running (the spec's Armed state). -/
def initWorld (N : Nat) : DacWorld :=
  { dac :=
      { pool := some (DMABufferPool.construct N true true)
        dmabuf0 := none
        dmabuf1 := none
        timRunning := false
        dacRunning := false
        resolution := 0 }
    app := [] }

/-- One observable operation of the bound driver, as implemented by the source:
`acquire` (`AdvancedDAC::dequeue` popping the free queue once a buffer is
writable), `submit` (`AdvancedDAC::write` on a buffer the application holds),
`releaseBuf` (`DMABuffer::release` on a buffer the application holds),
`complete` (the `DAC_DMAConvCplt` interrupt callback, on an execution the source
defines), and `stop` (`AdvancedDAC::stop`). -/
inductive DacStep : DacWorld → DacWorld → Prop
  | acquire (w : DacWorld) (p p' : DMABufferPool) (b : Nat) :
      w.dac.pool = some p → p.allocate = (some b, p') →
      DacStep w ⟨{ w.dac with pool := some p' }, b :: w.app⟩
  | submit (w : DacWorld) (p : DMABufferPool) (b : Nat) :
      w.dac.pool = some p → b ∈ w.app →
      DacStep w ⟨AdvancedDAC.write w.dac p b, w.app.erase b⟩
  | releaseBuf (w : DacWorld) (p : DMABufferPool) (b : Nat) :
      w.dac.pool = some p → b ∈ w.app →
      DacStep w ⟨{ w.dac with pool := some (p.release b) }, w.app.erase b⟩
  | complete (w : DacWorld) (ct : Bool) (d' : DacDescr) :
      DAC_DMAConvCplt w.dac ct = some d' →
      DacStep w ⟨d', w.app⟩
  | stop (w : DacWorld) :
      DacStep w ⟨AdvancedDAC.stop w.dac, w.app⟩

/-- Driver states reachable from a fresh pool of `N` buffers by the operations
of `DacStep`. -/
inductive DacReachable (N : Nat) : DacWorld → Prop
  | init : DacReachable N (initWorld N)
  | step {w w' : DacWorld} : DacReachable N w → DacStep w w' → DacReachable N w'

/-- The contents of one in-flight slot as a (zero- or one-element) list. -/
def slotList : Option Nat → List Nat
  | none => []
  | some b => [b]

/-- The partition invariant: the bound pool's free queue, its ready queue, the
two in-flight slots and the application-held buffers together hold each of the
`N` pool buffers exactly once. -/
def PoolPartition (N : Nat) (w : DacWorld) : Prop :=
  ∃ p, w.dac.pool = some p ∧
    ((p.freeq : Multiset Nat) + (p.readyq : Multiset Nat) +
      (slotList w.dac.dmabuf0 : Multiset Nat) + (slotList w.dac.dmabuf1 : Multiset Nat) +
      (w.app : Multiset Nat)) = Multiset.range N

/-- The HAL word `DAC_ALIGN_8B_R` (opaque to the claims; a distinct numeral). -/
def DAC_ALIGN_8B_R : Nat := 0

/-- The HAL word `DAC_ALIGN_12B_R` (opaque to the claims; a distinct numeral). -/
def DAC_ALIGN_12B_R : Nat := 1

/-- `DAC_RES_LUT` (AdvancedDAC.cpp lines 27-29): the supported precision table,
indexed by the `resolution` argument of `begin`. -/
def DAC_RES_LUT : List Nat := [DAC_ALIGN_8B_R, DAC_ALIGN_12B_R, DAC_ALIGN_12B_R]

/-- The static channel-descriptor table `dac_descr_all` (AdvancedDAC.cpp lines
20-25): one descriptor per DAC channel. -/
structure DacTable where
  ch1 : DacDescr
  ch2 : DacDescr

/-- Look up a channel's descriptor (`false` = `DAC_CHANNEL_1`,
`true` = `DAC_CHANNEL_2`), as `dac_descr_get` does for a valid channel word. -/
def DacTable.get (tbl : DacTable) (i : Bool) : DacDescr :=
  if i then tbl.ch2 else tbl.ch1

/-- Replace a channel's descriptor in the table. -/
def DacTable.set (tbl : DacTable) (i : Bool) (d : DacDescr) : DacTable :=
  if i then { tbl with ch2 := d } else { tbl with ch1 := d }

/-- `AdvancedDAC::begin(resolution, frequency, n_samples, n_buffers)`
(AdvancedDAC.cpp lines 116-157). External collaborators appear as parameters:
`chan` is the combined outcome of `pinmap_function`, `DAC_CHAN_LUT` and
`dac_descr_get` for the configured output pin (`none`: no channel resolves);
`newOk` models `new DMABufferPool(...)` yielding an object; `buffersOk`/`poolOk`
are the pool constructor's two internal allocations. `frequency` only reaches
`hal_tim_config` and the remaining HAL configuration calls have no observable
state here. The result is the returned `int`, the updated descriptor table, and
the value of the `descr` member after the call (`descr0` its value before). -/
def AdvancedDAC.begin (resolution n_buffers : Nat) (chan : Option Bool)
    (newOk buffersOk poolOk : Bool) (tbl : DacTable) (descr0 : Option Bool) :
    Nat × DacTable × Option Bool :=
  if resolution ≥ DAC_RES_LUT.length then (0, tbl, descr0)
  else
    match chan with
    | none => (0, tbl, none)
    | some i =>
      if ((tbl.get i).pool).isSome then (0, tbl, some i)
      else
        let newPool : Option DMABufferPool :=
          if newOk then some (DMABufferPool.construct n_buffers buffersOk poolOk)
          else none
        let d1 := { tbl.get i with pool := newPool }
        if newPool.isSome then
          let d2 := { d1 with resolution := DAC_RES_LUT.getD resolution 0 }
          (1, tbl.set i d2, some i)
        else (0, tbl.set i d1, some i)

/-- The sample/channel geometry and memory binding of a `DMABuffer<T>` as seen
by `operator[]` (DMABuffer.h lines 116-121): `mem = none` models a null `ptr`
(an unbound buffer, like the static `NULLBUF`); otherwise `mem` lists the stored
sample values. -/
structure DMABufferData where
  n_samples : Nat
  n_channels : Nat
  mem : Option (List Nat)

/-- `DMABuffer::size()`: `n_samples * n_channels` (DMABuffer.h line 67). -/
def DMABufferData.size (b : DMABufferData) : Nat := b.n_samples * b.n_channels

/-- `(T)(-1)` for an unsigned `w`-bit sample type `T`: the maximum value of the
type. The header defining `Sample` is not under src/; modelled from the spec as
a fixed-width unsigned sample type of `w` bits (16 on this target). -/
def sentinelValue (w : Nat) : Nat := 2 ^ w - 1

/-- `DMABuffer::operator[](i)` (DMABuffer.h lines 116-121):
`if (ptr && i < size()) return data()[i]; return -1;` for a `w`-bit unsigned
sample type. -/
def DMABufferData.index (b : DMABufferData) (w i : Nat) : Nat :=
  match b.mem with
  | some data => if i < b.size then data.getD i (sentinelValue w) else sentinelValue w
  | none => sentinelValue w

/-- The pointer arithmetic `((uintptr_t)stashed + offset) & ~(A - 1)` of
`AlignedAlloc<A>::malloc` (DMABuffer.h line 21): on the 32-bit target the
bitwise complement `~(A - 1)` of an `A ≥ 1` is the literal `2^32 - A`. -/
def AlignedAlloc.alignPtr (A x : Nat) : Nat := x &&& (2 ^ 32 - A)

/-- `AlignedAlloc<A>::round(size)`: `(size + (A-1)) & ~(A-1)` (DMABuffer.h
lines 32-34). -/
def AlignedAlloc.round (A size : Nat) : Nat :=
  AlignedAlloc.alignPtr A (size + (A - 1))

theorem DMABufferPool.allocate_eq_some {p p' : DMABufferPool} {b : Nat}
    (h : p.allocate = (some b, p')) :
    p.freeq = b :: p'.freeq ∧ p'.readyq = p.readyq := by
  cases hq : p.freeq with
  | nil => simp [DMABufferPool.allocate, llpop, hq] at h
  | cons x xs =>
    simp only [DMABufferPool.allocate, llpop, hq, Prod.mk.injEq, Option.some.injEq] at h
    obtain ⟨hb, hp⟩ := h
    subst hb
    subst hp
    exact ⟨rfl, rfl⟩

theorem DMABufferPool.readable_iff {p : DMABufferPool} :
    p.readable = true ↔ p.readyq ≠ [] := by
  simp [DMABufferPool.readable, llempty]

theorem AdvancedDAC.write_no_start (d : DacDescr) (p : DMABufferPool) (b : Nat) :
    AdvancedDAC.write d p b = { d with pool := some (p.enqueue b) } := by
  have hcond : ¬(d.dmabuf0 = none ∧ ((p.enqueue b).readable).toNat > 2) := by
    rintro ⟨-, h⟩
    cases hb : (p.enqueue b).readable <;> rw [hb] at h <;> simp [Bool.toNat] at h
  simp [AdvancedDAC.write, hcond]

theorem dac_descr_deinit_clears (d : DacDescr) (dl : Bool) :
    (dac_descr_deinit d dl).dmabuf0 = none ∧ (dac_descr_deinit d dl).dmabuf1 = none ∧
    (dac_descr_deinit d dl).timRunning = false ∧
    (dac_descr_deinit d dl).dacRunning = false :=
  ⟨rfl, rfl, rfl, rfl⟩

theorem dac_descr_deinit_false_pool (d : DacDescr) (p : DMABufferPool)
    (hp : d.pool = some p) :
    ∃ p', (dac_descr_deinit d false).pool = some p' ∧
      p'.freeq = p.freeq ++ slotList d.dmabuf0 ++ slotList d.dmabuf1 ∧
      p'.readyq = p.readyq := by
  cases h0 : d.dmabuf0 <;> cases h1 : d.dmabuf1 <;>
    simp [dac_descr_deinit, hp, h0, h1, DMABufferPool.release, llpush, slotList]

theorem coe_erase_of_mem {l : List Nat} {b : Nat} (h : b ∈ l) :
    (l : Multiset Nat) = {b} + ↑(l.erase b) := by
  rw [Multiset.singleton_add, Multiset.cons_coe]
  exact Multiset.coe_eq_coe.mpr (List.perm_cons_erase h)

theorem dacReachable_partition {N : Nat} {w : DacWorld}
    (h : DacReachable N w) : PoolPartition N w := by
  induction h with
  | init =>
    refine ⟨DMABufferPool.construct N true true, rfl, ?_⟩
    simp [DMABufferPool.construct, initWorld, slotList]
    rfl
  | @step w1 w2 hr hs ih =>
    obtain ⟨q, hq, hMS⟩ := ih
    cases hs with
    | acquire p p' b hp halloc =>
      rw [hp] at hq
      rw [← Option.some.inj hq] at hMS
      obtain ⟨hfr, hrd⟩ := DMABufferPool.allocate_eq_some halloc
      refine ⟨p', rfl, ?_⟩
      rw [← hMS, hfr, hrd]
      simp only [← Multiset.cons_coe, ← Multiset.singleton_add]
      abel
    | submit p b hp hb =>
      rw [hp] at hq
      rw [← Option.some.inj hq] at hMS
      simp only [AdvancedDAC.write_no_start]
      refine ⟨p.enqueue b, rfl, ?_⟩
      simp only [DMABufferPool.enqueue, llpush]
      rw [← hMS, coe_erase_of_mem hb]
      simp only [← Multiset.coe_add, ← Multiset.cons_coe, ← Multiset.singleton_add]
      abel
    | releaseBuf p b hp hb =>
      rw [hp] at hq
      rw [← Option.some.inj hq] at hMS
      refine ⟨p.release b, rfl, ?_⟩
      simp only [DMABufferPool.release, llpush]
      rw [← hMS, coe_erase_of_mem hb]
      simp only [← Multiset.coe_add, ← Multiset.cons_coe, ← Multiset.singleton_add]
      abel
    | complete ct d' hc =>
      cases hrb : q.readable with
      | false =>
        simp only [DAC_DMAConvCplt, hq, hrb, Bool.false_eq_true, if_false,
          Option.some.injEq] at hc
        subst hc
        obtain ⟨p', hp', hfr, hrd⟩ := dac_descr_deinit_false_pool w1.dac q hq
        obtain ⟨h0, h1, -, -⟩ := dac_descr_deinit_clears w1.dac false
        refine ⟨p', hp', ?_⟩
        rw [h0, h1, hfr, hrd, ← hMS]
        simp only [← Multiset.coe_add, slotList]
        abel
      | true =>
        cases hrq : q.readyq with
        | nil => exact absurd hrq (DMABufferPool.readable_iff.mp hrb)
        | cons r rest =>
          cases ct with
          | false =>
            cases hslot : w1.dac.dmabuf0 with
            | none =>
              simp [DAC_DMAConvCplt, hq, hrb, hslot] at hc
            | some b =>
              simp [DAC_DMAConvCplt, hq, hrb, hslot,
                DMABufferPool.release, DMABufferPool.dequeue, llpush, llpop, hrq] at hc
              subst hc
              refine ⟨_, rfl, ?_⟩
              rw [← hMS, hrq, hslot]
              simp only [slotList, ← Multiset.coe_add, ← Multiset.cons_coe,
                ← Multiset.singleton_add]
              abel
          | true =>
            cases hslot : w1.dac.dmabuf1 with
            | none =>
              simp [DAC_DMAConvCplt, hq, hrb, hslot] at hc
            | some b =>
              simp [DAC_DMAConvCplt, hq, hrb, hslot,
                DMABufferPool.release, DMABufferPool.dequeue, llpush, llpop, hrq] at hc
              subst hc
              refine ⟨_, rfl, ?_⟩
              rw [← hMS, hrq, hslot]
              simp only [slotList, ← Multiset.coe_add, ← Multiset.cons_coe,
                ← Multiset.singleton_add]
              abel
    | stop =>
      obtain ⟨p', hp', hfr, hrd⟩ := dac_descr_deinit_false_pool w1.dac q hq
      obtain ⟨h0, h1, -, -⟩ := dac_descr_deinit_clears w1.dac false
      refine ⟨p', hp', ?_⟩
      simp only [AdvancedDAC.stop]
      rw [h0, h1, hfr, hrd, ← hMS]
      simp only [← Multiset.coe_add, slotList]
      abel

theorem slotList_count_zero {s : Option Nat} {b : Nat} (h : s ≠ some b) :
    (slotList s).count b = 0 := by
  cases s with
  | none => rfl
  | some x =>
    have hxb : x ≠ b := fun he => h (by rw [he])
    simp [slotList, List.count_cons, hxb]

/-- A pool whose ready queue holds two buffers. -/
def c1Pool : DMABufferPool := { freeq := [], readyq := [0, 1], flags := fun _ => 0 }

/-- Claim C1 is a code bug: the spec says `readable()` returns the number of
buffers in the ready queue, and the driver compares `readable() > 2`, but the
source declares `bool readable() { return !readyq.empty(); }`. On a ready queue
holding two buffers the C++ value of `readable()` is 1 (true), not 2. -/
theorem claim_C1 :
    c1Pool.readyq.length = 2 ∧ c1Pool.readable = true ∧
    (c1Pool.readable).toNat = 1 ∧ (c1Pool.readable).toNat ≠ c1Pool.readyq.length :=
  ⟨rfl, rfl, rfl, by decide⟩

/-- A pool whose ready queue holds two buffers, bound to an idle channel. -/
def c2Pool : DMABufferPool := { freeq := [], readyq := [10, 11], flags := fun _ => 0 }

/-- The idle bound channel for the claim-C2 failing input: no transfer in
flight. -/
def c2Descr : DacDescr :=
  { pool := some c2Pool
    dmabuf0 := none
    dmabuf1 := none
    timRunning := false
    dacRunning := false
    resolution := 0 }

/-- Claim C2 is a code bug: with the first in-flight slot empty and the ready
queue holding three buffers after the enqueue (strictly more than two), `write`
still does not start the transfer. Because `readable()` returns `bool`, the
comparison `readable() > 2` evaluates 1 > 2 and is always false: the in-flight
slots stay empty, the timer and the DAC DMA are never started, and the buffer is
only enqueued. -/
theorem claim_C2 :
    AdvancedDAC.write c2Descr c2Pool 12 =
      { c2Descr with pool := some (c2Pool.enqueue 12) } ∧
    (c2Pool.enqueue 12).readyq = [10, 11, 12] ∧
    2 < (c2Pool.enqueue 12).readyq.length ∧
    (AdvancedDAC.write c2Descr c2Pool 12).dmabuf0 = none ∧
    (AdvancedDAC.write c2Descr c2Pool 12).timRunning = false ∧
    (AdvancedDAC.write c2Descr c2Pool 12).dacRunning = false := by
  refine ⟨AdvancedDAC.write_no_start c2Descr c2Pool 12, rfl, by decide, ?_, ?_, ?_⟩ <;>
    simp [AdvancedDAC.write_no_start, c2Descr]

/-- Claim C3, amended: along every reachable driver state the bound pool's free
queue, its ready queue, the two in-flight slots and the application-held buffers
(acquired but not yet resubmitted) partition the `N` pool buffers: the four
sizes sum to `N`, every buffer index below `N` occurs exactly once across them,
and the free queue, ready queue and in-flight slots are pairwise disjoint. -/
theorem claim_C3 {N : Nat} {w : DacWorld} {p : DMABufferPool}
    (hr : DacReachable N w) (hp : w.dac.pool = some p) :
    (p.freeq.length + p.readyq.length +
      ((slotList w.dac.dmabuf0).length + (slotList w.dac.dmabuf1).length) +
      w.app.length = N)
    ∧ (∀ b, b < N →
        p.freeq.count b + p.readyq.count b +
          ((slotList w.dac.dmabuf0).count b + (slotList w.dac.dmabuf1).count b) +
          w.app.count b = 1)
    ∧ (∀ b, ¬(b ∈ p.freeq ∧ b ∈ p.readyq))
    ∧ (∀ b, b ∈ p.freeq → w.dac.dmabuf0 ≠ some b ∧ w.dac.dmabuf1 ≠ some b)
    ∧ (∀ b, b ∈ p.readyq → w.dac.dmabuf0 ≠ some b ∧ w.dac.dmabuf1 ≠ some b)
    ∧ (∀ b, ¬(w.dac.dmabuf0 = some b ∧ w.dac.dmabuf1 = some b)) := by
  obtain ⟨q, hq, hMS⟩ := dacReachable_partition hr
  rw [hp] at hq
  rw [← Option.some.inj hq] at hMS
  have hcount : ∀ b : Nat,
      p.freeq.count b + p.readyq.count b + (slotList w.dac.dmabuf0).count b +
        (slotList w.dac.dmabuf1).count b + w.app.count b =
        Multiset.count b (Multiset.range N) := by
    intro b
    have hcb := congrArg (Multiset.count b) hMS
    simp [Multiset.count_add] at hcb
    omega
  have hrange : ∀ b : Nat,
      Multiset.count b (Multiset.range N) = if b < N then 1 else 0 := by
    intro b
    by_cases hb : b < N
    · rw [if_pos hb]
      show Multiset.count b (↑(List.range N)) = 1
      rw [Multiset.coe_count]
      exact List.count_eq_one_of_mem (List.nodup_range _) (List.mem_range.mpr hb)
    · rw [if_neg hb]
      show Multiset.count b (↑(List.range N)) = 0
      rw [Multiset.coe_count]
      exact List.count_eq_zero.mpr (fun hm => hb (List.mem_range.mp hm))
  have hle : ∀ b : Nat,
      p.freeq.count b + p.readyq.count b + (slotList w.dac.dmabuf0).count b +
        (slotList w.dac.dmabuf1).count b + w.app.count b ≤ 1 := by
    intro b
    have hcb := hcount b
    rw [hrange b] at hcb
    split_ifs at hcb <;> omega
  refine ⟨?_, ?_, ?_, ?_, ?_, ?_⟩
  · have hcard := congrArg Multiset.card hMS
    simp [Multiset.card_add] at hcard
    omega
  · intro b hb
    have hcb := hcount b
    rw [hrange b, if_pos hb] at hcb
    omega
  · rintro b ⟨h1, h2⟩
    have c1 : 0 < p.freeq.count b := List.count_pos_iff.mpr h1
    have c2 : 0 < p.readyq.count b := List.count_pos_iff.mpr h2
    have hcb := hle b
    omega
  · intro b hbf
    have c1 : 0 < p.freeq.count b := List.count_pos_iff.mpr hbf
    have hcb := hle b
    constructor
    · intro hs0
      have e0 : (slotList w.dac.dmabuf0).count b = 1 := by simp [hs0, slotList]
      omega
    · intro hs1
      have e1 : (slotList w.dac.dmabuf1).count b = 1 := by simp [hs1, slotList]
      omega
  · intro b hbr
    have c1 : 0 < p.readyq.count b := List.count_pos_iff.mpr hbr
    have hcb := hle b
    constructor
    · intro hs0
      have e0 : (slotList w.dac.dmabuf0).count b = 1 := by simp [hs0, slotList]
      omega
    · intro hs1
      have e1 : (slotList w.dac.dmabuf1).count b = 1 := by simp [hs1, slotList]
      omega
  · rintro b ⟨h0, h1⟩
    have e0 : (slotList w.dac.dmabuf0).count b = 1 := by simp [h0, slotList]
    have e1 : (slotList w.dac.dmabuf1).count b = 1 := by simp [h1, slotList]
    have hcb := hle b
    omega

/-- Witness for claim C3: the amended partition facts instantiated at the fresh
two-buffer pool, discharged by the theorem itself at `DacReachable.init`. -/
theorem claim_C3_witness :
    ((DMABufferPool.construct 2 true true).freeq.length +
      (DMABufferPool.construct 2 true true).readyq.length +
      ((slotList (initWorld 2).dac.dmabuf0).length +
        (slotList (initWorld 2).dac.dmabuf1).length) +
      (initWorld 2).app.length = 2)
    ∧ (∀ b, b < 2 →
        (DMABufferPool.construct 2 true true).freeq.count b +
          (DMABufferPool.construct 2 true true).readyq.count b +
          ((slotList (initWorld 2).dac.dmabuf0).count b +
            (slotList (initWorld 2).dac.dmabuf1).count b) +
          (initWorld 2).app.count b = 1)
    ∧ (∀ b, ¬(b ∈ (DMABufferPool.construct 2 true true).freeq ∧
        b ∈ (DMABufferPool.construct 2 true true).readyq))
    ∧ (∀ b, b ∈ (DMABufferPool.construct 2 true true).freeq →
        (initWorld 2).dac.dmabuf0 ≠ some b ∧ (initWorld 2).dac.dmabuf1 ≠ some b)
    ∧ (∀ b, b ∈ (DMABufferPool.construct 2 true true).readyq →
        (initWorld 2).dac.dmabuf0 ≠ some b ∧ (initWorld 2).dac.dmabuf1 ≠ some b)
    ∧ (∀ b, ¬((initWorld 2).dac.dmabuf0 = some b ∧
        (initWorld 2).dac.dmabuf1 = some b)) :=
  claim_C3 DacReachable.init rfl

/-- The pool of the claim-C3 counterexample state: all queues empty (its one
buffer is held by the application). -/
def c3Pool : DMABufferPool := { freeq := [], readyq := [], flags := fun _ => 0 }

/-- The claim-C3 counterexample state: a one-buffer pool right after `acquire`
popped the only buffer; the application holds it. -/
def c3World : DacWorld :=
  { dac :=
      { pool := some c3Pool
        dmabuf0 := none
        dmabuf1 := none
        timRunning := false
        dacRunning := false
        resolution := 0 }
    app := [0] }

/-- Counterexample to claim C3 as stated: in the reachable state right after
`acquire` on a one-buffer pool, the free queue, ready queue and in-flight slots
together hold 0 buffers, not `N = 1` — the acquired buffer is held by the
application, outside all three sets. -/
theorem claim_C3_counterexample :
    DacReachable 1 c3World ∧ c3World.dac.pool = some c3Pool ∧
    c3Pool.freeq.length + c3Pool.readyq.length +
      ((slotList c3World.dac.dmabuf0).length + (slotList c3World.dac.dmabuf1).length) = 0 ∧
    (0 : Nat) ≠ 1 := by
  refine ⟨?_, rfl, rfl, by decide⟩
  exact DacReachable.step DacReachable.init
    (DacStep.acquire (initWorld 1) (DMABufferPool.construct 1 true true) c3Pool 0 rfl rfl)

/-- Claim C4: a buffer that went through acquire → fill → submit sits in the
ready queue and is later moved into an in-flight slot; when a completion
callback consumes it from slot `ct` (the buffer being in no queue and not in the
other slot, as the partition invariant guarantees), it reappears in the free
queue exactly once and in no other place — neither duplicated nor lost. This
covers both callback branches: the refill branch releases the consumed slot
buffer and refills the slot from the ready queue; the underrun branch releases
both slots. -/
theorem claim_C4 {d : DacDescr} {p : DMABufferPool} {b : Nat} {ct : Bool}
    {d' : DacDescr}
    (hp : d.pool = some p)
    (hslot : (if ct then d.dmabuf1 else d.dmabuf0) = some b)
    (hfree : b ∉ p.freeq) (hready : b ∉ p.readyq)
    (hother : (if ct then d.dmabuf0 else d.dmabuf1) ≠ some b)
    (hc : DAC_DMAConvCplt d ct = some d') :
    ∃ p', d'.pool = some p' ∧ p'.freeq.count b = 1 ∧ b ∉ p'.readyq ∧
      d'.dmabuf0 ≠ some b ∧ d'.dmabuf1 ≠ some b := by
  have hfz : p.freeq.count b = 0 := List.count_eq_zero.mpr hfree
  cases hrb : p.readable with
  | false =>
    simp only [DAC_DMAConvCplt, hp, hrb, Bool.false_eq_true, if_false,
      Option.some.injEq] at hc
    subst hc
    obtain ⟨p', hp', hfr, hrd⟩ := dac_descr_deinit_false_pool d p hp
    obtain ⟨h0, h1, -, -⟩ := dac_descr_deinit_clears d false
    refine ⟨p', hp', ?_, ?_, ?_, ?_⟩
    · rw [hfr]
      cases ct with
      | false =>
        simp at hslot hother
        rw [List.count_append, List.count_append, hfz, hslot,
          slotList_count_zero hother]
        simp [slotList, List.count_cons]
      | true =>
        simp at hslot hother
        rw [List.count_append, List.count_append, hfz, hslot,
          slotList_count_zero hother]
        simp [slotList, List.count_cons]
    · rw [hrd]; exact hready
    · rw [h0]; exact fun he => Option.noConfusion he
    · rw [h1]; exact fun he => Option.noConfusion he
  | true =>
    cases hrq : p.readyq with
    | nil => exact absurd hrq (DMABufferPool.readable_iff.mp hrb)
    | cons r rest =>
      have hbr : b ≠ r := fun he => hready (by rw [hrq, he]; exact List.mem_cons_self r rest)
      have hbrest : b ∉ rest := fun hm => hready (by rw [hrq]; exact List.mem_cons_of_mem r hm)
      cases ct with
      | false =>
        simp at hslot hother
        simp only [DAC_DMAConvCplt, hp, hrb, if_true, Bool.false_eq_true, if_false,
          hslot, DMABufferPool.release, DMABufferPool.dequeue, llpush, llpop, hrq,
          Option.some.injEq] at hc
        subst hc
        refine ⟨_, rfl, ?_, ?_, ?_, ?_⟩
        · simp [List.count_append, hfz, List.count_cons]
        · exact hbrest
        · exact fun he => hbr (Option.some.inj he).symm
        · exact hother
      | true =>
        simp at hslot hother
        simp only [DAC_DMAConvCplt, hp, hrb, if_true, hslot,
          DMABufferPool.release, DMABufferPool.dequeue, llpush, llpop, hrq,
          Option.some.injEq] at hc
        subst hc
        refine ⟨_, rfl, ?_, ?_, ?_, ?_⟩
        · simp [List.count_append, hfz, List.count_cons]
        · exact hbrest
        · exact hother
        · exact fun he => hbr (Option.some.inj he).symm

/-- The pool of the claim-C4 witness: one buffer ready, buffer 1 in-flight. -/
def c4Pool : DMABufferPool := { freeq := [], readyq := [3], flags := fun _ => 0 }

/-- The streaming descriptor of the claim-C4 witness. -/
def c4Descr : DacDescr :=
  { pool := some c4Pool
    dmabuf0 := some 1
    dmabuf1 := some 2
    timRunning := true
    dacRunning := true
    resolution := 0 }

/-- The descriptor produced by the completion callback on the claim-C4 witness:
buffer 1 released to the free queue, buffer 3 refilled into slot 0. -/
def c4Result : DacDescr :=
  { pool := some
      { freeq := [1], readyq := [], flags := fun x => if x = 1 then 0 else 0 }
    dmabuf0 := some 3
    dmabuf1 := some 2
    timRunning := true
    dacRunning := true
    resolution := 0 }

/-- Witness for claim C4: on the concrete streaming state `c4Descr`, the
completion callback consuming in-flight buffer 1 from slot 0 puts it in the
free queue exactly once. -/
theorem claim_C4_witness :
    ∃ p', c4Result.pool = some p' ∧ p'.freeq.count 1 = 1 ∧ 1 ∉ p'.readyq ∧
      c4Result.dmabuf0 ≠ some 1 ∧ c4Result.dmabuf1 ≠ some 1 :=
  @claim_C4 c4Descr c4Pool 1 false c4Result rfl rfl (by decide) (by decide)
    (by decide) rfl

/-- Claim C5: a completion callback firing while the ready queue is empty tears
the transfer down: the trigger timer and the DAC DMA are stopped, both in-flight
buffers are released back to the free queue (slot 0 first) and their slots
cleared, and the pool itself is retained — the Armed state. -/
theorem claim_C5 {d : DacDescr} {p : DMABufferPool} {b0 b1 : Nat} (ct : Bool)
    (hp : d.pool = some p) (hempty : p.readyq = [])
    (h0 : d.dmabuf0 = some b0) (h1 : d.dmabuf1 = some b1) :
    ∃ d', DAC_DMAConvCplt d ct = some d' ∧ d'.timRunning = false ∧
      d'.dacRunning = false ∧ d'.dmabuf0 = none ∧ d'.dmabuf1 = none ∧
      ∃ p', d'.pool = some p' ∧ p'.freeq = p.freeq ++ [b0, b1] ∧ p'.readyq = [] := by
  have hrb : p.readable = false := by
    simp [DMABufferPool.readable, llempty, hempty]
  obtain ⟨p', hp', hfr, hrd⟩ := dac_descr_deinit_false_pool d p hp
  refine ⟨dac_descr_deinit d false, ?_, rfl, rfl, rfl, rfl, p', hp', ?_, ?_⟩
  · simp [DAC_DMAConvCplt, hp, hrb]
  · rw [hfr, h0, h1]
    simp [slotList]
  · rw [hrd, hempty]

/-- The pool of the claim-C5 witness: free queue holds buffer 2, ready queue
empty. -/
def c5Pool : DMABufferPool := { freeq := [2], readyq := [], flags := fun _ => 0 }

/-- The streaming descriptor of the claim-C5 witness: buffers 0 and 1 in
flight, ready queue empty (underrun imminent). -/
def c5Descr : DacDescr :=
  { pool := some c5Pool
    dmabuf0 := some 0
    dmabuf1 := some 1
    timRunning := true
    dacRunning := true
    resolution := 0 }

/-- Witness for claim C5: the underrun callback on the concrete state
`c5Descr` stops the transfer, clears both slots, frees both in-flight buffers
and keeps the pool. -/
theorem claim_C5_witness :
    ∃ d', DAC_DMAConvCplt c5Descr false = some d' ∧ d'.timRunning = false ∧
      d'.dacRunning = false ∧ d'.dmabuf0 = none ∧ d'.dmabuf1 = none ∧
      ∃ p', d'.pool = some p' ∧ p'.freeq = c5Pool.freeq ++ [0, 1] ∧
        p'.readyq = [] :=
  @claim_C5 c5Descr c5Pool 0 1 false rfl rfl rfl rfl

theorem DacTable.get_set_self (tbl : DacTable) (i : Bool) (d : DacDescr) :
    (tbl.set i d).get i = d := by
  cases i <;> simp [DacTable.get, DacTable.set]

/-- Claim C6: `begin` returns failure (0) when the resolution index is out of
range of `DAC_RES_LUT`, when no channel descriptor resolves for the configured
pin, and when the resolved channel already has a bound pool; in each of these
cases no channel's pool binding is changed by the call. -/
theorem claim_C6 (resolution n_buffers : Nat) (chan : Option Bool)
    (newOk buffersOk poolOk : Bool) (tbl : DacTable) (descr0 : Option Bool)
    (h : resolution ≥ DAC_RES_LUT.length ∨ chan = none ∨
      (∃ i, chan = some i ∧ ((tbl.get i).pool).isSome = true)) :
    (AdvancedDAC.begin resolution n_buffers chan newOk buffersOk poolOk tbl descr0).1 = 0 ∧
    ∀ j, (((AdvancedDAC.begin resolution n_buffers chan newOk buffersOk poolOk
        tbl descr0).2.1).get j).pool = (tbl.get j).pool := by
  rcases h with h | h | ⟨i, hi, hpool⟩
  · simp [AdvancedDAC.begin, h]
  · subst h
    by_cases hr : resolution ≥ DAC_RES_LUT.length <;>
      simp [AdvancedDAC.begin, hr]
  · subst hi
    by_cases hr : resolution ≥ DAC_RES_LUT.length
    · simp [AdvancedDAC.begin, hr]
    · simp [AdvancedDAC.begin, hr, hpool]

/-- The empty (pre-`begin`) channel descriptor: no pool, no transfer. -/
def emptyDacDescr : DacDescr :=
  { pool := none
    dmabuf0 := none
    dmabuf1 := none
    timRunning := false
    dacRunning := false
    resolution := 0 }

/-- The descriptor table before any `begin`: both channels unbound. -/
def freshTbl : DacTable := { ch1 := emptyDacDescr, ch2 := emptyDacDescr }

/-- Witness for claim C6: `begin` with the out-of-range resolution index 5 on a
fresh table fails and leaves every pool binding unchanged. -/
theorem claim_C6_witness :
    (AdvancedDAC.begin 5 4 (some false) true true true freshTbl none).1 = 0 ∧
    ∀ j, (((AdvancedDAC.begin 5 4 (some false) true true true freshTbl
        none).2.1).get j).pool = (freshTbl.get j).pool :=
  claim_C6 5 4 (some false) true true true freshTbl none (Or.inl (by decide))

/-- Counterexample to claim C7 as stated: with the pool object allocated
(`new` succeeds) but the pool's internal aligned allocation failed, `begin`
returns 1 (success), not the failure the claim requires. The source only checks
`descr->pool == nullptr`, not whether the constructed pool got usable memory. -/
theorem claim_C7_counterexample :
    (AdvancedDAC.begin 1 4 (some false) true true false freshTbl none).1 = 1 := rfl

/-- A driver world whose bound pool is non-functional and empty-handed: both
queues empty, no in-flight buffers, no application-held buffers — the state a
failed pool construction leaves behind. -/
def DeadPoolWorld (w : DacWorld) : Prop :=
  ∃ p, w.dac.pool = some p ∧ p.freeq = [] ∧ p.readyq = [] ∧
    w.dac.dmabuf0 = none ∧ w.dac.dmabuf1 = none ∧ w.app = []

/-- The driver states reachable from a given start state by any sequence of
driver operations (reflexive-transitive closure of `DacStep`). -/
inductive DacTrace (w0 : DacWorld) : DacWorld → Prop
  | refl : DacTrace w0 w0
  | step {w w' : DacWorld} : DacTrace w0 w → DacStep w w' → DacTrace w0 w'

theorem deadPool_available {w : DacWorld} (hd : DeadPoolWorld w) :
    AdvancedDAC.available (some w.dac) = some false := by
  obtain ⟨p, hp, hf, -, -, -, -⟩ := hd
  simp [AdvancedDAC.available, hp, DMABufferPool.writable, llempty, hf]

theorem deadPool_step {w w' : DacWorld} (hd : DeadPoolWorld w)
    (hs : DacStep w w') : DeadPoolWorld w' := by
  obtain ⟨p, hp, hf, hr, h0, h1, ha⟩ := hd
  cases hs with
  | acquire p2 p' b hp2 halloc =>
    rw [hp] at hp2
    rw [← Option.some.inj hp2] at halloc
    obtain ⟨hfr, -⟩ := DMABufferPool.allocate_eq_some halloc
    rw [hf] at hfr
    exact absurd hfr (by simp)
  | submit p2 b hp2 hb =>
    rw [ha] at hb
    exact absurd hb (List.not_mem_nil b)
  | releaseBuf p2 b hp2 hb =>
    rw [ha] at hb
    exact absurd hb (List.not_mem_nil b)
  | complete ct d' hc =>
    have hrb : p.readable = false := by
      simp [DMABufferPool.readable, llempty, hr]
    simp only [DAC_DMAConvCplt, hp, hrb, Bool.false_eq_true, if_false,
      Option.some.injEq] at hc
    subst hc
    refine ⟨p, ?_, hf, hr, rfl, rfl, ha⟩
    simp [dac_descr_deinit, h0, h1, hp]
  | stop =>
    refine ⟨p, ?_, hf, hr, rfl, rfl, ha⟩
    simp [AdvancedDAC.stop, dac_descr_deinit, h0, h1, hp]

theorem deadPool_trace {w0 w : DacWorld} (ht : DacTrace w0 w)
    (hd : DeadPoolWorld w0) : DeadPoolWorld w := by
  induction ht with
  | refl => exact hd
  | step ht hs ih => exact deadPool_step ih hs

/-- Claim C7, amended: `begin` returns failure (0) only when allocation of the
pool object itself (`new DMABufferPool(...)`) yields null; when the pool object
is constructed but its backing aligned allocation or descriptor-array
allocation failed, `begin` nevertheless returns success (1) while binding a
non-functional pool, and `available()` on the bound channel reports false from
then on: in every state reachable from the post-`begin` channel state (whose
descriptor, as in the static table before any `begin`, has both in-flight slots
clear) by any sequence of driver operations, `available()` is false. -/
theorem claim_C7 (resolution n_buffers : Nat) (i : Bool)
    (buffersOk poolOk : Bool) (tbl : DacTable) (descr0 : Option Bool)
    (hres : resolution < DAC_RES_LUT.length)
    (hfree : (tbl.get i).pool = none)
    (hs0 : (tbl.get i).dmabuf0 = none) (hs1 : (tbl.get i).dmabuf1 = none) :
    ((AdvancedDAC.begin resolution n_buffers (some i) false buffersOk poolOk
        tbl descr0).1 = 0) ∧
    ((buffersOk && poolOk) = false →
      (AdvancedDAC.begin resolution n_buffers (some i) true buffersOk poolOk
          tbl descr0).1 = 1 ∧
      ∀ w', DacTrace
          { dac := ((AdvancedDAC.begin resolution n_buffers (some i) true
              buffersOk poolOk tbl descr0).2.1).get i
            app := [] } w' →
        AdvancedDAC.available (some w'.dac) = some false) := by
  have hnr : ¬ resolution ≥ DAC_RES_LUT.length := not_le.mpr hres
  constructor
  · simp [AdvancedDAC.begin, hnr, hfree]
  · intro hbad
    constructor
    · simp [AdvancedDAC.begin, hnr, hfree]
    · intro w' ht
      refine deadPool_available (deadPool_trace ht ?_)
      refine ⟨DMABufferPool.construct n_buffers buffersOk poolOk,
        ?_, ?_, ?_, ?_, ?_, rfl⟩
      · simp only [AdvancedDAC.begin, hnr, if_false, hfree, Option.isSome_none,
          Bool.false_eq_true, Option.isSome_some, if_true]
        rw [DacTable.get_set_self]
      · simp [DMABufferPool.construct, hbad]
      · simp [DMABufferPool.construct, hbad]
      · simp only [AdvancedDAC.begin, hnr, if_false, hfree, Option.isSome_none,
          Bool.false_eq_true, Option.isSome_some, if_true]
        rw [DacTable.get_set_self]
        exact hs0
      · simp only [AdvancedDAC.begin, hnr, if_false, hfree, Option.isSome_none,
          Bool.false_eq_true, Option.isSome_some, if_true]
        rw [DacTable.get_set_self]
        exact hs1

/-- Witness for claim C7 (amended): on a fresh table, `begin` with the pool
object failing returns 0; with the pool object allocated but its aligned
backing allocation failed, `begin` returns 1 and `available()` reports false in
the post-`begin` state (the empty trace of subsequent operations). -/
theorem claim_C7_witness :
    ((AdvancedDAC.begin 1 4 (some false) false true false freshTbl none).1 = 0) ∧
    ((AdvancedDAC.begin 1 4 (some false) true true false freshTbl none).1 = 1 ∧
      AdvancedDAC.available (some (((AdvancedDAC.begin 1 4 (some false) true
          true false freshTbl none).2.1).get false)) = some false) :=
  ⟨(claim_C7 1 4 false true false freshTbl none (by decide) rfl rfl rfl).1,
   ⟨((claim_C7 1 4 false true false freshTbl none (by decide) rfl rfl rfl).2 rfl).1,
    ((claim_C7 1 4 false true false freshTbl none (by decide) rfl rfl rfl).2 rfl).2
      { dac := ((AdvancedDAC.begin 1 4 (some false) true true false freshTbl
          none).2.1).get false
        app := [] }
      DacTrace.refl⟩⟩

/-- Claim C8: the indexed read returns the sentinel (`(T)(-1)`, the maximum
`w`-bit value) whenever the buffer is unbound or the index is at or past
`samples * channels`, and returns the `i`-th stored element otherwise; the
in-range access is a total, in-bounds list access (no abort, no out-of-bounds
read). -/
theorem claim_C8 (bf : DMABufferData) (w i : Nat) :
    (bf.mem = none → bf.index w i = sentinelValue w) ∧
    (bf.size ≤ i → bf.index w i = sentinelValue w) ∧
    (∀ data, bf.mem = some data → data.length = bf.size → i < bf.size →
      ∃ hh : i < data.length, bf.index w i = data.get ⟨i, hh⟩) := by
  refine ⟨?_, ?_, ?_⟩
  · intro h
    simp [DMABufferData.index, h]
  · intro h
    cases hm : bf.mem with
    | none => simp [DMABufferData.index, hm]
    | some data => simp [DMABufferData.index, hm, Nat.not_lt.mpr h]
  · intro data hm hlen hi
    have hh : i < data.length := by rw [hlen]; exact hi
    refine ⟨hh, ?_⟩
    simp only [DMABufferData.index, hm, hi, if_true]
    exact List.getD_eq_get data (sentinelValue w) hh

/-- A bound two-sample single-channel buffer holding values 7 and 9. -/
def c8Buf : DMABufferData := { n_samples := 2, n_channels := 1, mem := some [7, 9] }

/-- An unbound buffer (null `ptr`), like the driver's static `NULLBUF`. -/
def c8NullBuf : DMABufferData := { n_samples := 2, n_channels := 1, mem := none }

/-- Witness for claim C8: the unbound read and the out-of-range read return the
16-bit sentinel 65535, and the in-range read returns the stored element. -/
theorem claim_C8_witness :
    (c8NullBuf.index 16 0 = sentinelValue 16) ∧
    (c8Buf.index 16 5 = sentinelValue 16) ∧
    (∃ hh : 1 < ([7, 9] : List Nat).length,
      c8Buf.index 16 1 = ([7, 9] : List Nat).get ⟨1, hh⟩) :=
  ⟨(claim_C8 c8NullBuf 16 0).1 rfl,
   (claim_C8 c8Buf 16 5).2.1 (by decide),
   (claim_C8 c8Buf 16 1).2.2 [7, 9] rfl rfl (by decide)⟩

/-- A bound pool for the claim-C10 witness. -/
def c10Pool : DMABufferPool := { freeq := [0], readyq := [], flags := fun _ => 0 }

/-- A bound descriptor (constructed pool) for the claim-C10 witness. -/
def c10Descr : DacDescr :=
  { pool := some c10Pool
    dmabuf0 := none
    dmabuf1 := none
    timRunning := false
    dacRunning := false
    resolution := 0 }

/-- An unbound-pool descriptor for the claim-C10 witness. -/
def c10NoPool : DacDescr :=
  { pool := none
    dmabuf0 := none
    dmabuf1 := none
    timRunning := false
    dacRunning := false
    resolution := 0 }

/-- Claim C10: `write` is unguarded — before a successful `begin` its behaviour
is undefined: with a null descriptor, or a descriptor whose pool was never
constructed, the call dereferences a null pointer (`none` in this model). In
contrast `available()` returns false and `dequeue()` returns the `NULLBUF`
sentinel on a null descriptor. With a bound descriptor holding a constructed
pool — and only then — `write` has a defined result. -/
theorem claim_C10 :
    (∀ b, AdvancedDAC.writeM none b = none) ∧
    (AdvancedDAC.available none = some false) ∧
    (AdvancedDAC.dequeue none = some (none, none)) ∧
    (∀ d b, d.pool = none → AdvancedDAC.writeM (some d) b = none) ∧
    (∀ d p b, d.pool = some p → (AdvancedDAC.writeM (some d) b).isSome = true) := by
  refine ⟨fun b => rfl, rfl, rfl, ?_, ?_⟩
  · intro d b h
    simp [AdvancedDAC.writeM, h]
  · intro d p b h
    simp [AdvancedDAC.writeM, h]

/-- Witness for claim C10: on the concrete bound descriptor `c10Descr`,
`write` is defined; on the concrete pool-less descriptor `c10NoPool`, it is
undefined. -/
theorem claim_C10_witness :
    ((AdvancedDAC.writeM (some c10Descr) 0).isSome = true) ∧
    (AdvancedDAC.writeM (some c10NoPool) 0 = none) :=
  ⟨claim_C10.2.2.2.2 c10Descr c10Pool 0 rfl, claim_C10.2.2.2.1 c10NoPool 0 rfl⟩
